import Mathlib

/-!
# Verification of the manublog SEO content-scoring and unique-slug logic

Shallow embedding of the blog platform's two core components:

* the slug allocator `generateUniqueSlug` from `routes/posts.js`
  (built on `slugify(title, { lower: true, strict: true })` from the
  `slugify` npm package and a probe loop over the persisted posts), and
* the two SEO content scorers: the server-side `analyzeSEO` from the SEO
  routes file and the client-side `SEOAnalyzer.analyzeSEO` React component.

Strings are modelled by Lean `String` (a list of Unicode scalar values);
JavaScript `str.length` and character handling agree with this model on the
Basic Multilingual Plane inputs the claims are about.  JavaScript numbers
are IEEE doubles; every numeric computation of the scorers that the claims
touch (integer sums, `x / y * 100` followed by `Math.round` / `toFixed(2)`)
is modelled with exact rational / integer arithmetic.  At every value the
claims exercise, double rounding and exact rounding coincide (the
quantities `10·t/7` produced by the client scorer are never half-integers,
and the keyword-density scenario value is the exact double `5.0`).
-/

/-! ## JavaScript character classes -/

/-- JavaScript `\s` (whitespace class), restricted to the ASCII range
(the Unicode space characters are irrelevant to every claim). -/
def isSpaceJS (c : Char) : Bool :=
  c = ' ' || c = '\t' || c = '\n' || c = '\r' || c = '\x0b' || c = '\x0c'

/-- `[A-Za-z0-9]`. -/
def isAsciiAlphanum (c : Char) : Bool :=
  (65 ≤ c.toNat && c.toNat ≤ 90) || (97 ≤ c.toNat && c.toNat ≤ 122) ||
    (48 ≤ c.toNat && c.toNat ≤ 57)

/-- `[a-z0-9]`. -/
def isLowerAlnum (c : Char) : Bool :=
  (97 ≤ c.toNat && c.toNat ≤ 122) || (48 ≤ c.toNat && c.toNat ≤ 57)

/-- `[0-9]`. -/
def isDigit10 (c : Char) : Bool :=
  48 ≤ c.toNat && c.toNat ≤ 57

/-- JavaScript `\w` (word character), used by the `\b` word-boundary
assertion: `[A-Za-z0-9_]`. -/
def isWordChar (c : Char) : Bool :=
  isAsciiAlphanum c || c = '_'

/-- ASCII lower-casing of one character, as JavaScript's `toLowerCase`
acts on the Basic Latin letters (this is also Lean's `Char.toLower`). -/
def asciiLower (c : Char) : Char :=
  if 65 ≤ c.toNat && c.toNat ≤ 90 then Char.ofNat (c.toNat + 32) else c

/-- `String.prototype.toLowerCase`, on ASCII letters. -/
def asciiLowerStr (s : String) : String :=
  ⟨s.data.map asciiLower⟩

/-! ## Decimal rendering of numbers

JavaScript renders the probe counter (`` `${counter}` ``) and the various
counts in messages in decimal.  `natToDec` is that rendering for naturals.
-/

/-- The decimal digit characters. -/
def digitChar10 (d : Nat) : Char :=
  if d = 0 then '0' else if d = 1 then '1' else if d = 2 then '2'
  else if d = 3 then '3' else if d = 4 then '4' else if d = 5 then '5'
  else if d = 6 then '6' else if d = 7 then '7' else if d = 8 then '8'
  else '9'

/-- Digits of `n` in base 10, most significant first; `fuel ≥ n + 1`
suffices for the recursion. -/
def natToDecAux : Nat → Nat → List Char
  | 0, _ => []
  | fuel + 1, n =>
    if n < 10 then [digitChar10 n]
    else natToDecAux fuel (n / 10) ++ [digitChar10 (n % 10)]

/-- Decimal rendering of a natural number, as JavaScript string
interpolation produces it. -/
def natToDec (n : Nat) : String :=
  ⟨natToDecAux (n + 1) n⟩

/-- Numeric value of a digit character. -/
def digitVal (c : Char) : Nat := c.toNat - 48

/-- Value of a most-significant-first digit list. -/
def decValue (l : List Char) : Nat :=
  l.foldl (fun a c => a * 10 + digitVal c) 0

/-! ## `slugify(title, { lower: true, strict: true })`

From the `slugify` npm package (as called by `generateUniqueSlug` in
`routes/posts.js` and by the SEO `generate-slug` route).  With these
options the pipeline is: map each character through the char-map (where a
literal `-`, the replacement character, becomes a space, and a few ASCII
symbols transliterate to words), remove everything outside `[A-Za-z0-9\s]`
(the per-character default `remove` regex keeps a superset of what the
`strict` pass keeps, so their composition is the `strict` filter), `trim()`
the result, replace every run of whitespace by `-`, and lower-case.

Only the ASCII fragment of the package's char-map is modelled; the Unicode
transliteration entries feed into the same `[A-Za-z0-9\s]` filter, so the
slug-shape results below are insensitive to them, and every claim input is
ASCII. -/

/-- ASCII entries of the `slugify` char-map, with the package's
`appendChar === replacement` rule mapping `'-'` to a space. -/
def slugCharMap (c : Char) : List Char :=
  if c = '-' then [' ']
  else if c = '$' then "dollar".data
  else if c = '%' then "percent".data
  else if c = '&' then "and".data
  else if c = '<' then "less".data
  else if c = '>' then "greater".data
  else if c = '|' then "or".data
  else [c]

/-- Drop leading and trailing JavaScript whitespace (`String.prototype.trim`). -/
def trimWs (l : List Char) : List Char :=
  (((l.dropWhile isSpaceJS).reverse.dropWhile isSpaceJS).reverse)

/-- `replace(/\s+/g, '-')`: each maximal whitespace run becomes one `'-'`.
The flag records whether we are inside a whitespace run. -/
def collapseWs : Bool → List Char → List Char
  | _, [] => []
  | inRun, c :: rest =>
    if isSpaceJS c then
      if inRun then collapseWs true rest else '-' :: collapseWs true rest
    else c :: collapseWs false rest

/-- `slugify(title, { lower: true, strict: true })`. -/
def slugifyStrictLower (title : String) : String :=
  let mapped := (title.data.map slugCharMap).flatten
  let kept := mapped.filter (fun c => isAsciiAlphanum c || isSpaceJS c)
  ⟨(collapseWs false (trimWs kept)).map asciiLower⟩

/-! ## The slug shape `^[a-z0-9]+(-[a-z0-9]+)*$`

`slugAccept afterWord l` is the deterministic automaton for this regular
expression: `afterWord` is true when the previous character was a word
character (so the input may end, or a hyphen may follow). -/

def slugAccept : Bool → List Char → Bool
  | afterWord, [] => afterWord
  | afterWord, c :: rest =>
    if c = '-' then afterWord && slugAccept false rest
    else isLowerAlnum c && slugAccept true rest

/-- Matches `^[a-z0-9]+(-[a-z0-9]+)*$`: non-empty, lowercase alphanumerics
and single separating hyphens, no leading/trailing hyphen. -/
def isGoodSlug (s : String) : Bool :=
  slugAccept false s.data

/-! ## The slug allocator (`generateUniqueSlug` in `routes/posts.js`)

The persisted posts are modelled by a list of records; `slug` is a unique
column in the Prisma schema, so `prisma.post.findUnique({ where: { slug } })`
is modelled by `List.find?` (the uniqueness hypothesis, where a theorem
needs it, is `Nodup` of the stored slugs).  The JavaScript `while (true)`
loop is embedded with explicit fuel returning `Option`; `none` is the
artefact of exhausted fuel, and `probeSlug_terminates` below shows that
fuel `store.length + 1` always suffices, so the embedding is total on the
loop's actual behaviour. -/

/-- A persisted post, restricted to the columns the allocator and the
update route read. -/
structure PostRec where
  id : String
  title : String
  slug : String
  deriving DecidableEq, Repr

/-- `prisma.post.findUnique({ where: { slug }, select: { id: true } })`. -/
def findUniqueBySlug (store : List PostRec) (s : String) : Option PostRec :=
  store.find? (fun p => p.slug == s)

/-- The loop's continue condition: the candidate is taken by a post other
than the excluded one.  JavaScript's `postId && existingPost.id === postId`
treats a `null` or empty-string `postId` as falsy. -/
def slugTaken (store : List PostRec) (postId : Option String) (s : String) :
    Bool :=
  match findUniqueBySlug store s with
  | none => false
  | some p =>
    match postId with
    | none => true
    | some pid => !(pid != "" && p.id == pid)

/-- The `n`-th probed candidate: the base slug for `n = 0`, then
`` `${baseSlug}-${counter}` `` for counters 1, 2, …. -/
def candidateSlug (base : String) (n : Nat) : String :=
  if n = 0 then base else base ++ "-" ++ natToDec n

/-- The allocator's probe loop; `n` is the index of the current candidate
and `fuel` bounds the remaining iterations. -/
def probeSlug (store : List PostRec) (postId : Option String)
    (base : String) : Nat → Nat → Option String
  | 0, _ => none
  | fuel + 1, n =>
    if slugTaken store postId (candidateSlug base n) then
      probeSlug store postId base fuel (n + 1)
    else some (candidateSlug base n)

/-- `generateUniqueSlug(title, postId = null)` from `routes/posts.js`,
with the persisted posts made explicit.  Fuel `store.length + 1` is enough
for the JavaScript loop's exact behaviour (`probeSlug_terminates`). -/
def generateUniqueSlug (store : List PostRec) (title : String)
    (postId : Option String) : Option String :=
  probeSlug store postId (slugifyStrictLower title) (store.length + 1) 0

/-- The slug decision of the `PUT /api/posts/:id` route: keep the stored
slug, regenerating it (excluding the post itself) only when the submitted
title differs from the stored one. -/
def updatePostSlug (store : List PostRec) (existingPost : PostRec)
    (title : String) : Option String :=
  if title != existingPost.title then
    generateUniqueSlug store title (some existingPost.id)
  else some existingPost.slug

/-! ## JavaScript string splitting (`split(/\s+/)`)

`"a b".split(/\s+/) = ["a","b"]`, `" a".split(/\s+/) = ["","a"]`,
`"a ".split(/\s+/) = ["a",""]`, `"".split(/\s+/) = [""]`: chunks between
maximal whitespace runs, with an empty chunk for a leading or trailing
separator. -/

mutual

/-- Splitting state inside a chunk; `acc` holds the reversed chunk so far. -/
def jsSplitWsAux (acc : List Char) : List Char → List (List Char)
  | [] => [acc.reverse]
  | c :: rest =>
    if isSpaceJS c then acc.reverse :: jsSkipWs rest
    else jsSplitWsAux (c :: acc) rest

/-- Splitting state inside a whitespace separator run. -/
def jsSkipWs : List Char → List (List Char)
  | [] => [[]]
  | c :: rest => if isSpaceJS c then jsSkipWs rest else jsSplitWsAux [c] rest

end

/-- `str.split(/\s+/)` on the character list of `str`. -/
def jsSplitWs (l : List Char) : List (List Char) :=
  jsSplitWsAux [] l

/-! ## HTML-ish tag scanning

The scorers use the regexes `/<[^>]*>/g` (strip), `/<h[1-6][^>]*>/gi`,
`/<img[^>]*>/gi` and `/<a[^>]*>/gi`.  A match runs from a `<` (whose
prefix satisfies the pattern) to the first following `>`; if no `>`
follows, nothing matches from there on (every match needs a `>`). -/

/-- `replace(/<[^>]*>/g, '')`.  The state holds the reversed characters
accumulated since an unclosed `<` (which become literal text if no `>`
ever closes them). -/
def stripTagsAux : Option (List Char) → List Char → List Char
  | none, [] => []
  | some buf, [] => buf.reverse
  | none, c :: rest =>
    if c = '<' then stripTagsAux (some ['<']) rest
    else c :: stripTagsAux none rest
  | some buf, c :: rest =>
    if c = '>' then stripTagsAux none rest
    else stripTagsAux (some (c :: buf)) rest

/-- Remove every `<...>` span, as `content.replace(/<[^>]*>/g, '')`. -/
def stripTags (l : List Char) : List Char :=
  stripTagsAux none l

/-- Scanner for the spans matched by `/<pat[^>]*>/gi`: `p` tests the
literal pattern prefix at the current position (the prefixes used below
never contain `>`), a started match accumulates (reversed) characters
until the first `>`, and a start with no following `>` ends the scan
(every later match would also need that missing `>`). -/
def tagSpansAux (p : List Char → Bool) : Option (List Char) → List Char →
    List (List Char)
  | none, [] => []
  | some _, [] => []
  | none, c :: rest =>
    if p (c :: rest) then tagSpansAux p (some [c]) rest
    else tagSpansAux p none rest
  | some buf, c :: rest =>
    if c = '>' then (buf.reverse ++ ['>']) :: tagSpansAux p none rest
    else tagSpansAux p (some (c :: buf)) rest

/-- The spans matched by `/<pat[^>]*>/gi`; matched spans keep their
original characters (the image check inspects them case-sensitively). -/
def tagSpans (p : List Char → Bool) (l : List Char) : List (List Char) :=
  tagSpansAux p none l

/-- Start-of-match test for `/<img[^>]*>/gi`. -/
def isImgStart (l : List Char) : Bool :=
  (l.take 4).map asciiLower == "<img".data

/-- Start-of-match test for `/<a[^>]*>/gi`. -/
def isAnchorStart (l : List Char) : Bool :=
  (l.take 2).map asciiLower == "<a".data

/-- Start-of-match test for `/<h[1-6][^>]*>/gi`. -/
def isHeadingStart (l : List Char) : Bool :=
  match l with
  | '<' :: c :: d :: _ =>
    (asciiLower c == 'h') && (49 ≤ d.toNat && d.toNat ≤ 54)
  | _ => false

/-- `String.prototype.includes` on character lists. -/
def containsSub (pat : List Char) : List Char → Bool
  | [] => pat.isEmpty
  | l@(_ :: rest) => pat.isPrefixOf l || containsSub pat rest

/-! ## Whole-word occurrence counting

`(contentLower.match(new RegExp(`\b${word}\b`, 'gi')) || []).length`: the
non-overlapping left-to-right occurrences of the literal `word` flanked by
word boundaries.  Both `word` and the text have already been lower-cased
by the caller; title words carrying regex metacharacters are not treated
(no claim exercises them). -/

/-- `\b` before the match: start of input or a non-word character. -/
def boundaryBefore : Option Char → Bool
  | none => true
  | some d => !isWordChar d

/-- `\b` after the match: end of input or a non-word character. -/
def boundaryAfter : List Char → Bool
  | [] => true
  | d :: _ => !isWordChar d

/-- Scan for whole-word matches of `w`; `prev` is the character before the
current position.  After a match the scan resumes at the match end.  Each
step consumes at least one character, so fuel `text.length` makes the
recursion structural without changing the result. -/
def countWWAux (w : List Char) : Nat → Option Char → List Char → Nat
  | 0, _, _ => 0
  | _ + 1, _, [] => 0
  | fuel + 1, prev, c :: rest =>
    if h : w ≠ [] ∧ w.isPrefixOf (c :: rest) = true ∧
        boundaryBefore prev = true ∧
        boundaryAfter ((c :: rest).drop w.length) = true then
      1 + countWWAux w fuel (some (w.getLast h.1)) ((c :: rest).drop w.length)
    else countWWAux w fuel (some c) rest

/-- Number of case-insensitive whole-word occurrences of `w` in `text`
(both already lower-cased). -/
def countWW (w text : List Char) : Nat :=
  countWWAux w text.length none text

/-! ## JavaScript rounding on exact fractions -/

/-- `Math.round(num / den)` for a nonnegative fraction (round half
towards `+∞`), in exact integer arithmetic. -/
def jsRoundDiv (num den : Nat) : Nat :=
  (2 * num + den) / (2 * den)

/-- `(num / den).toFixed(2)` for a nonnegative fraction, in exact
arithmetic: round to hundredths (half away from zero, which for
nonnegative values is half up) and print with exactly two decimals. -/
def toFixed2 (num den : Nat) : String :=
  let h := (200 * num + den) / (2 * den)
  natToDec (h / 100) ++ "." ++ (if h % 100 < 10 then "0" else "") ++
    natToDec (h % 100)

/-! ## The server-side Content Scorer (`analyzeSEO` in the SEO routes)

Checks are worth 20 (title), 20 (meta description), 15 (slug), 15 (word
count), 10 (headings), 10 (image alt text, only when images are present)
and 5 (links); error and warning branches award nothing.  The final score
is `Math.min(100, score)` over the plain sum. -/

/-- One entry of `analysis.checks`. -/
structure SCheck where
  status : String
  message : String
  deriving DecidableEq, Repr

/-- The `analysis` object returned by the server `analyzeSEO`.
`keywordDensity` is `none` when the `title && content` guard fails and the
field is never assigned. -/
structure ServerAnalysis where
  score : Nat
  issues : List String
  suggestions : List String
  checks : List (String × SCheck)
  keywordDensity : Option (List (String × Nat × String))
  status : String
  deriving DecidableEq, Repr

/-- Title analysis: points awarded, issues pushed, check entry. -/
def titleBlock (title : String) : Nat × List String × (String × SCheck) :=
  if title.length = 0 then
    (0, ["Title is missing"], ("title", ⟨"error", "Title is required"⟩))
  else if title.length < 30 then
    (0, ["Title is too short (recommended: 30-60 characters)"],
      ("title", ⟨"warning", "Title is " ++ natToDec title.length ++
        " characters (recommended: 30-60)"⟩))
  else if title.length > 60 then
    (0, ["Title is too long (recommended: 30-60 characters)"],
      ("title", ⟨"warning", "Title is " ++ natToDec title.length ++
        " characters (recommended: 30-60)"⟩))
  else
    (20, [], ("title", ⟨"success", "Title length is optimal (" ++
      natToDec title.length ++ " characters)"⟩))

/-- Meta-description analysis. -/
def metaBlock (metaDescription : String) :
    Nat × List String × (String × SCheck) :=
  if metaDescription.length = 0 then
    (0, ["Meta description is missing"],
      ("metaDescription", ⟨"error", "Meta description is required for SEO"⟩))
  else if metaDescription.length < 120 then
    (0, ["Meta description is too short (recommended: 120-160 characters)"],
      ("metaDescription", ⟨"warning", "Meta description is " ++
        natToDec metaDescription.length ++
        " characters (recommended: 120-160)"⟩))
  else if metaDescription.length > 160 then
    (0, ["Meta description is too long (recommended: 120-160 characters)"],
      ("metaDescription", ⟨"warning", "Meta description is " ++
        natToDec metaDescription.length ++
        " characters (recommended: 120-160)"⟩))
  else
    (20, [], ("metaDescription", ⟨"success",
      "Meta description length is optimal (" ++
      natToDec metaDescription.length ++ " characters)"⟩))

/-- Slug analysis; `/^[a-z0-9-]+$/.test(slug)` on a non-empty slug is the
per-character class check. -/
def slugBlock (slug : String) : Nat × List String × (String × SCheck) :=
  if slug.length = 0 then
    (0, ["URL slug is missing"],
      ("slug", ⟨"error", "URL slug is required"⟩))
  else if slug.length > 75 then
    (0, ["URL slug is too long (recommended: under 75 characters)"],
      ("slug", ⟨"warning", "URL slug is " ++ natToDec slug.length ++
        " characters (recommended: under 75)"⟩))
  else if !(slug.data.all (fun c => isLowerAlnum c || c == '-')) then
    (0, ["URL slug should only contain lowercase letters, numbers, and hyphens"],
      ("slug", ⟨"warning", "URL slug should be lowercase with hyphens"⟩))
  else
    (15, [], ("slug", ⟨"success", "URL slug is SEO-friendly"⟩))

/-- Content analysis: points, issues, suggestions, check entries (word
count, headings, images when present, links). -/
def contentBlock (content : String) :
    Nat × List String × List String × List (String × SCheck) :=
  if content.length = 0 then
    (0, ["Content is missing"], [],
      [("content", ⟨"error", "Content is required"⟩)])
  else
    let wordCount := (jsSplitWs content.data).length
    let headingMatches := tagSpans isHeadingStart content.data
    let imageMatches := tagSpans isImgStart content.data
    let linkMatches := tagSpans isAnchorStart content.data
    let wcPart : Nat × List String × List (String × SCheck) :=
      if wordCount < 300 then
        (0, ["Content is too short (recommended: 300+ words for SEO)"],
          [("wordCount", ⟨"warning", "Content has " ++ natToDec wordCount ++
            " words (recommended: 300+)"⟩)])
      else
        (15, [], [("wordCount", ⟨"success", "Content has " ++
          natToDec wordCount ++ " words"⟩)])
    let hdPart : Nat × List String × List (String × SCheck) :=
      if headingMatches.length = 0 then
        (0, ["Add headings (H1, H2, H3) to improve content structure"],
          [("headings", ⟨"warning", "No headings found in content"⟩)])
      else
        (10, [], [("headings", ⟨"success", "Found " ++
          natToDec headingMatches.length ++ " headings"⟩)])
    let imgPart : Nat × List String × List (String × SCheck) :=
      if imageMatches.length > 0 then
        let imagesWithoutAlt := imageMatches.filter (fun img =>
          !(containsSub "alt=".data img) || containsSub "alt=\"\"".data img)
        if imagesWithoutAlt.length > 0 then
          (0, [natToDec imagesWithoutAlt.length ++ " images missing alt text"],
            [("images", ⟨"warning", natToDec imagesWithoutAlt.length ++
              " of " ++ natToDec imageMatches.length ++
              " images missing alt text"⟩)])
        else
          (10, [], [("images", ⟨"success", "All " ++
            natToDec imageMatches.length ++ " images have alt text"⟩)])
      else (0, [], [])
    let lkPart : Nat × List String × List (String × SCheck) :=
      if linkMatches.length = 0 then
        (0, ["Add internal links to improve SEO and user experience"],
          [("links", ⟨"info", "No links found in content"⟩)])
      else
        (5, [], [("links", ⟨"success", "Found " ++
          natToDec linkMatches.length ++ " links"⟩)])
    (wcPart.1 + hdPart.1 + imgPart.1 + lkPart.1,
      wcPart.2.1 ++ imgPart.2.1,
      hdPart.2.1 ++ lkPart.2.1,
      wcPart.2.2 ++ hdPart.2.2 ++ imgPart.2.2 ++ lkPart.2.2)

/-- Assignment `keywordDensities[word] = …`: a repeated title word
overwrites its entry in place (JavaScript object key semantics). -/
def kdUpsert (entries : List (String × Nat × String)) (k : String)
    (v : Nat × String) : List (String × Nat × String) :=
  match entries with
  | [] => [(k, v)]
  | (k', v') :: rest =>
    if k' == k then (k, v) :: rest else (k', v') :: kdUpsert rest k v

/-- The keyword-density table: for each lower-cased title word longer than
3 characters, its whole-word count in the lower-cased content and
`(count / content.split(/\s+/).length * 100).toFixed(2)`. -/
def kdEntries (content title : String) : List (String × Nat × String) :=
  let contentLower := asciiLowerStr content
  let totalWords := (jsSplitWs content.data).length
  let titleWords := jsSplitWs (asciiLowerStr title).data
  titleWords.foldl (fun acc w =>
    if w.length > 3 then
      let mcount := countWW w contentLower.data
      kdUpsert acc ⟨w⟩ (mcount, toFixed2 (mcount * 100) totalWords)
    else acc) []

/-- The server-side `analyzeSEO(content, title, metaDescription, slug)`. -/
def serverAnalyzeSEO (content title metaDescription slug : String) :
    ServerAnalysis :=
  let tB := titleBlock title
  let mB := metaBlock metaDescription
  let sB := slugBlock slug
  let cB := contentBlock content
  let kd := if title != "" && content != "" then
      some (kdEntries content title)
    else none
  let score := min 100 (tB.1 + mB.1 + sB.1 + cB.1)
  { score := score,
    issues := tB.2.1 ++ mB.2.1 ++ sB.2.1 ++ cB.2.1,
    suggestions := cB.2.2.1,
    checks := [tB.2.2, mB.2.2, sB.2.2] ++ cB.2.2.2,
    keywordDensity := kd,
    status := if score ≥ 80 then "excellent" else if score ≥ 60 then "good"
      else if score ≥ 40 then "needs-improvement" else "poor" }

/-- `analysis.keywordDensity[word]`, as a `(count, density)` pair. -/
def kdLookup (a : ServerAnalysis) (w : String) : Option (Nat × String) :=
  match a.keywordDensity with
  | none => none
  | some entries => (entries.find? (fun e => e.1 == w)).map (fun e => e.2)

/-! ## The client-side Content Scorer (`SEOAnalyzer.analyzeSEO`)

Seven checks are always pushed (title, meta description, content length,
slug, featured image, tags, headings), each worth 0, 5, 7 or 10 points;
the branches that award points also add the same amount to `totalScore`
(the error branches push a 0-score check and add nothing).  The final
score is `Math.round(totalScore / (checks.length * 10) * 100)`. -/

/-- One entry of the component's `checks` array. -/
structure CCheck where
  id : String
  name : String
  status : String
  message : String
  score : Nat
  deriving DecidableEq, Repr

/-- One keyword-density entry of the component (`density` is the exact
value of the JavaScript float percentage). -/
structure KDe where
  word : String
  count : Nat
  density : Rat
  deriving DecidableEq, Repr

/-- The state the component derives in one `analyzeSEO()` run. -/
structure ClientReport where
  wordCount : Nat
  readingTime : Nat
  checks : List CCheck
  seoScore : Nat
  keywordDensity : List KDe
  deriving DecidableEq, Repr

/-- Title check: the returned check and the `totalScore` increment of the
taken branch. -/
def cTitleCheck (title : String) : CCheck × Nat :=
  if title.length = 0 then
    (⟨"title-missing", "Title Missing", "error",
      "Post title is required for SEO", 0⟩, 0)
  else if title.length < 30 then
    (⟨"title-short", "Title Too Short", "warning",
      "Title is " ++ natToDec title.length ++
        " characters. Aim for 50-60 characters.", 5⟩, 5)
  else if title.length > 60 then
    (⟨"title-long", "Title Too Long", "warning",
      "Title is " ++ natToDec title.length ++
        " characters. Keep it under 60 characters.", 5⟩, 5)
  else
    (⟨"title-good", "Title Length", "success",
      "Title length (" ++ natToDec title.length ++
        " chars) is optimal for SEO.", 10⟩, 10)

/-- Meta-description check. -/
def cMetaCheck (metaDescription : String) : CCheck × Nat :=
  if metaDescription.length = 0 then
    (⟨"meta-missing", "Meta Description Missing", "error",
      "Meta description is crucial for search results", 0⟩, 0)
  else if metaDescription.length < 120 then
    (⟨"meta-short", "Meta Description Too Short", "warning",
      "Meta description is " ++ natToDec metaDescription.length ++
        " characters. Aim for 150-160 characters.", 5⟩, 5)
  else if metaDescription.length > 160 then
    (⟨"meta-long", "Meta Description Too Long", "warning",
      "Meta description is " ++ natToDec metaDescription.length ++
        " characters. Keep it under 160 characters.", 5⟩, 5)
  else
    (⟨"meta-good", "Meta Description Length", "success",
      "Meta description length (" ++ natToDec metaDescription.length ++
        " chars) is optimal.", 10⟩, 10)

/-- Content length check, on the word count of the tag-stripped content. -/
def cContentCheck (wordCount : Nat) : CCheck × Nat :=
  if wordCount < 300 then
    (⟨"content-short", "Content Too Short", "warning",
      "Content has " ++ natToDec wordCount ++
        " words. Aim for at least 300 words for better SEO.", 5⟩, 5)
  else
    (⟨"content-good", "Content Length", "success",
      "Content length (" ++ natToDec wordCount ++
        " words) is good for SEO.", 10⟩, 10)

/-- Slug check. -/
def cSlugCheck (slug : String) : CCheck × Nat :=
  if slug.length = 0 then
    (⟨"slug-missing", "URL Slug Missing", "error",
      "URL slug is required for SEO-friendly URLs", 0⟩, 0)
  else if slug.length > 60 then
    (⟨"slug-long", "URL Slug Too Long", "warning",
      "Keep URL slug under 60 characters for better readability", 5⟩, 5)
  else
    (⟨"slug-good", "URL Slug", "success", "URL slug is SEO-friendly", 10⟩, 10)

/-- Featured-image check. -/
def cImageCheck (featuredImage : String) : CCheck × Nat :=
  if featuredImage != "" then
    (⟨"image-present", "Featured Image", "success",
      "Featured image helps with social sharing and engagement", 10⟩, 10)
  else
    (⟨"image-missing", "Featured Image Missing", "warning",
      "Consider adding a featured image for better social sharing", 5⟩, 5)

/-- Tags check. -/
def cTagsCheck (tags : List String) : CCheck × Nat :=
  if tags.length = 0 then
    (⟨"tags-missing", "No Tags", "warning",
      "Add relevant tags to improve content discoverability", 5⟩, 5)
  else if tags.length > 10 then
    (⟨"tags-many", "Too Many Tags", "warning",
      "Consider using fewer, more relevant tags (5-8 is optimal)", 7⟩, 7)
  else
    (⟨"tags-good", "Tags", "success",
      "Good number of tags (" ++ natToDec tags.length ++
        ") for categorization", 10⟩, 10)

/-- Headings check (on the raw content, like the source). -/
def cHeadingsCheck (content : String) : CCheck × Nat :=
  let headingMatches := tagSpans isHeadingStart content.data
  if headingMatches.length = 0 then
    (⟨"headings-missing", "No Headings", "warning",
      "Use headings (H1, H2, H3) to structure your content", 5⟩, 5)
  else
    (⟨"headings-present", "Content Structure", "success",
      "Good use of headings (" ++ natToDec headingMatches.length ++
        " found)", 10⟩, 10)

/-- `wordFreq[word] = (wordFreq[word] || 0) + 1` over a frequency table in
insertion order. -/
def bumpFreq : List (String × Nat) → String → List (String × Nat)
  | [], w => [(w, 1)]
  | (k, n) :: rest, w =>
    if k == w then (k, n + 1) :: rest else (k, n) :: bumpFreq rest w

/-- `calculateKeywordDensity(text)`: lower-case, drop `[^\w\s]`, split on
whitespace, keep words longer than 3 characters, count frequencies, attach
`count / wordCount * 100`, sort by count descending (stable) and keep the
top 10. -/
def clientKD (text : String) : List KDe :=
  let words := ((jsSplitWs ((asciiLowerStr text).data.filter
    (fun c => isWordChar c || isSpaceJS c))).filter (fun w => w.length > 3))
  let wordCount := words.length
  let freq := words.foldl (fun acc w => bumpFreq acc ⟨w⟩) []
  let entries := freq.map (fun e =>
    KDe.mk e.1 e.2 ((e.2 : Rat) / (wordCount : Rat) * 100))
  (entries.mergeSort (fun a b => decide (b.count ≤ a.count))).take 10

/-- Word count of the client scorer: strip tags, split on whitespace,
drop empty chunks. -/
def clientWordCount (content : String) : Nat :=
  ((jsSplitWs (stripTags content.data)).filter (fun w => w.length > 0)).length

/-- The client-side `SEOAnalyzer.analyzeSEO()` run. -/
def clientAnalyzeSEO (title content metaDescription slug featuredImage :
    String) (tags : List String) : ClientReport :=
  let plainContent := stripTags content.data
  let words := (jsSplitWs plainContent).filter (fun w => w.length > 0)
  let wordCount := words.length
  let readingTime := (wordCount + 199) / 200
  let p1 := cTitleCheck title
  let p2 := cMetaCheck metaDescription
  let p3 := cContentCheck wordCount
  let p4 := cSlugCheck slug
  let p5 := cImageCheck featuredImage
  let p6 := cTagsCheck tags
  let p7 := cHeadingsCheck content
  let checks := [p1.1, p2.1, p3.1, p4.1, p5.1, p6.1, p7.1]
  let totalScore := p1.2 + p2.2 + p3.2 + p4.2 + p5.2 + p6.2 + p7.2
  let keywordDensity := clientKD ⟨plainContent⟩
  let maxScore := checks.length * 10
  let finalScore := jsRoundDiv (totalScore * 100) maxScore
  { wordCount := wordCount, readingTime := readingTime, checks := checks,
    seoScore := finalScore, keywordDensity := keywordDensity }

/-- Concrete scenario content for the keyword-density witness: 100
whitespace-separated words of which exactly 5 are `hooks`. -/
def hooksContent : String :=
  String.intercalate " "
    ((List.replicate 5 ("hooks" :: List.replicate 19 "w")).flatten)

/-- A 45-character title for the full-points scenario. -/
def wellFormedTitle : String := String.mk (List.replicate 45 'a')

/-- A 140-character meta description for the full-points scenario. -/
def wellFormedMeta : String := String.mk (List.replicate 140 'm')

/-- 400 words plus a heading tag for the full-points scenario. -/
def wellFormedContent : String :=
  String.join (List.replicate 400 "w ") ++ "<h2>x</h2>"

/-! ## Lemmas and claim theorems -/

theorem charOfNat_toNat (m : Nat) (hv : m.isValidChar) :
    (Char.ofNat m).toNat = m := by
  simp [Char.ofNat, dif_pos hv, Char.ofNatAux, Char.toNat, UInt32.toNat,
    BitVec.toNat_ofNatLt]

theorem toNat_asciiLower_of_upper (c : Char) (h1 : 65 ≤ c.toNat)
    (h2 : c.toNat ≤ 90) : (asciiLower c).toNat = c.toNat + 32 := by
  have hb : (decide (65 ≤ c.toNat) && decide (c.toNat ≤ 90)) = true := by
    simp [h1, h2]
  unfold asciiLower
  rw [if_pos hb]
  exact charOfNat_toNat _ (Or.inl (by omega))

theorem asciiLower_eq_self_of_not_upper (c : Char)
    (h : ¬(65 ≤ c.toNat ∧ c.toNat ≤ 90)) : asciiLower c = c := by
  simp only [asciiLower, ite_eq_right_iff]
  intro hc
  simp only [Bool.and_eq_true, decide_eq_true_eq] at hc
  exact absurd hc h

theorem isLowerAlnum_asciiLower (c : Char) (h : isAsciiAlphanum c = true) :
    isLowerAlnum (asciiLower c) = true := by
  simp only [isAsciiAlphanum, Bool.or_eq_true, Bool.and_eq_true,
    decide_eq_true_eq] at h
  rcases h with (h | h) | h
  · have := toNat_asciiLower_of_upper c h.1 h.2
    simp only [isLowerAlnum, Bool.or_eq_true, Bool.and_eq_true,
      decide_eq_true_eq]
    omega
  · rw [asciiLower_eq_self_of_not_upper c (by omega)]
    simp only [isLowerAlnum, Bool.or_eq_true, Bool.and_eq_true,
      decide_eq_true_eq]
    omega
  · rw [asciiLower_eq_self_of_not_upper c (by omega)]
    simp only [isLowerAlnum, Bool.or_eq_true, Bool.and_eq_true,
      decide_eq_true_eq]
    omega

theorem not_isSpaceJS_of_isAsciiAlphanum (c : Char)
    (h : isAsciiAlphanum c = true) : isSpaceJS c = false := by
  rw [Bool.eq_false_iff]
  intro hs
  simp only [isSpaceJS, Bool.or_eq_true, decide_eq_true_eq] at hs
  rcases hs with ((((h1 | h1) | h1) | h1) | h1) | h1 <;> subst h1 <;>
    exact absurd h (by decide)

theorem digitVal_digitChar10 (d : Nat) (h : d < 10) :
    digitVal (digitChar10 d) = d := by
  interval_cases d <;> rfl

theorem isDigit10_digitChar10 (d : Nat) (h : d < 10) :
    isDigit10 (digitChar10 d) = true := by
  interval_cases d <;> rfl

theorem decValue_append_digit (l : List Char) (c : Char) :
    decValue (l ++ [c]) = decValue l * 10 + digitVal c := by
  simp [decValue, List.foldl_append]

theorem decValue_natToDecAux : ∀ fuel n, n < fuel →
    decValue (natToDecAux fuel n) = n := by
  intro fuel
  induction fuel with
  | zero => intro n h; omega
  | succ f ih =>
    intro n h
    by_cases h10 : n < 10
    · simp [natToDecAux, h10, decValue, digitVal_digitChar10 n h10]
    · have hdiv : n / 10 < f := by
        have : n / 10 < n := Nat.div_lt_self (by omega) (by omega)
        omega
      simp only [natToDecAux, h10, if_false]
      rw [decValue_append_digit, ih _ hdiv,
        digitVal_digitChar10 _ (Nat.mod_lt _ (by omega))]
      omega

theorem decValue_natToDec (n : Nat) : decValue (natToDec n).data = n :=
  decValue_natToDecAux (n + 1) n (by omega)

theorem natToDec_injective : Function.Injective natToDec := by
  intro a b h
  have := congrArg (fun s => decValue s.data) h
  simpa [decValue_natToDec] using this

theorem natToDecAux_ne_nil (fuel n : Nat) (h : 0 < fuel) :
    natToDecAux fuel n ≠ [] := by
  cases fuel with
  | zero => omega
  | succ f =>
    by_cases h10 : n < 10 <;> simp [natToDecAux, h10]

theorem natToDec_ne_empty (n : Nat) : natToDec n ≠ "" := by
  intro h
  have := congrArg String.data h
  exact natToDecAux_ne_nil (n + 1) n (by omega) this

theorem isDigit10_of_mem_natToDecAux : ∀ fuel n c,
    c ∈ natToDecAux fuel n → isDigit10 c = true := by
  intro fuel
  induction fuel with
  | zero => intro n c h; simp [natToDecAux] at h
  | succ f ih =>
    intro n c h
    by_cases h10 : n < 10
    · simp only [natToDecAux, h10, if_true, List.mem_singleton] at h
      rw [h]; exact isDigit10_digitChar10 n h10
    · simp only [natToDecAux, h10, if_false, List.mem_append,
        List.mem_singleton] at h
      rcases h with h | h
      · exact ih _ _ h
      · rw [h]; exact isDigit10_digitChar10 _ (Nat.mod_lt _ (by omega))

theorem isLowerAlnum_of_isDigit10 (c : Char) (h : isDigit10 c = true) :
    isLowerAlnum c = true := by
  simp only [isDigit10, Bool.and_eq_true, decide_eq_true_eq] at h
  simp only [isLowerAlnum, Bool.or_eq_true, Bool.and_eq_true,
    decide_eq_true_eq]
  omega

theorem slugAccept_cons_hyphen (b : Bool) (rest : List Char) :
    slugAccept b ('-' :: rest) = (b && slugAccept false rest) := by
  simp [slugAccept]

theorem slugAccept_cons_of_ne (b : Bool) {c : Char} (h : c ≠ '-')
    (rest : List Char) :
    slugAccept b (c :: rest) = (isLowerAlnum c && slugAccept true rest) := by
  simp [slugAccept, h]

theorem head?_dropWhile {p : Char → Bool} :
    ∀ {l : List Char} {c : Char}, (l.dropWhile p).head? = some c →
      p c = false := by
  intro l
  induction l with
  | nil => intro c h; simp [List.dropWhile] at h
  | cons a t ih =>
    intro c h
    by_cases ha : p a
    · rw [List.dropWhile_cons_of_pos ha] at h
      exact ih h
    · rw [List.dropWhile_cons_of_neg ha] at h
      simp only [List.head?_cons, Option.some.injEq] at h
      rw [← h]
      exact Bool.eq_false_iff.mpr ha

theorem getLast?_dropWhile {p : Char → Bool} :
    ∀ {l : List Char} {c : Char}, (l.dropWhile p).getLast? = some c →
      l.getLast? = some c := by
  intro l
  induction l with
  | nil => intro c h; simp [List.dropWhile] at h
  | cons a t ih =>
    intro c h
    by_cases ha : p a
    · rw [List.dropWhile_cons_of_pos ha] at h
      have ht := ih h
      have : t ≠ [] := by
        intro he
        rw [he] at ht
        simp at ht
      cases t with
      | nil => exact absurd rfl this
      | cons b u => rw [List.getLast?_cons_cons]; exact ih h
    · rwa [List.dropWhile_cons_of_neg ha] at h

theorem mem_trimWs {l : List Char} {c : Char} (h : c ∈ trimWs l) : c ∈ l := by
  simp only [trimWs, List.mem_reverse] at h
  have h1 := (List.dropWhile_sublist (l := (l.dropWhile isSpaceJS).reverse)
    (p := isSpaceJS)).subset h
  rw [List.mem_reverse] at h1
  exact (List.dropWhile_sublist (l := l) (p := isSpaceJS)).subset h1

theorem head?_trimWs {l : List Char} {c : Char}
    (h : (trimWs l).head? = some c) : isSpaceJS c = false := by
  rw [trimWs, List.head?_reverse] at h
  have h1 := getLast?_dropWhile h
  rw [List.getLast?_reverse] at h1
  exact head?_dropWhile h1

theorem getLast?_trimWs {l : List Char} {c : Char}
    (h : (trimWs l).getLast? = some c) : isSpaceJS c = false := by
  rw [trimWs, List.getLast?_reverse] at h
  exact head?_dropWhile h

theorem ne_hyphen_of_isLowerAlnum {c : Char} (h : isLowerAlnum c = true) :
    c ≠ '-' := by
  intro he
  subst he
  exact absurd h (by decide)

theorem ne_hyphen_of_isAsciiAlphanum {c : Char}
    (h : isAsciiAlphanum c = true) : asciiLower c ≠ '-' :=
  ne_hyphen_of_isLowerAlnum (isLowerAlnum_asciiLower c h)

/-- Main structural lemma about the `\s+ → '-'` replacement: on a trimmed
list of alphanumerics and whitespace, the collapsed, lower-cased output is
accepted by the slug automaton (from the after-word state when no hyphen is
pending, from the after-hyphen state when one is). -/
theorem slugAccept_collapseWs :
    ∀ l : List Char,
      (∀ c ∈ l, isAsciiAlphanum c = true ∨ isSpaceJS c = true) →
      (∀ c, l.getLast? = some c → isSpaceJS c = false) →
      slugAccept true ((collapseWs false l).map asciiLower) = true ∧
        (l ≠ [] → slugAccept false ((collapseWs true l).map asciiLower) = true) := by
  intro l
  induction l with
  | nil =>
    intro _ _
    exact ⟨rfl, fun h => absurd rfl h⟩
  | cons c rest ih =>
    intro hchars hlast
    have hcrest : ∀ d ∈ rest, isAsciiAlphanum d = true ∨ isSpaceJS d = true :=
      fun d hd => hchars d (List.mem_cons_of_mem c hd)
    have hlrest : ∀ d, rest.getLast? = some d → isSpaceJS d = false := by
      intro d hd
      apply hlast d
      cases rest with
      | nil => simp at hd
      | cons b u => rwa [List.getLast?_cons_cons]
    have ihrest := ih hcrest hlrest
    by_cases hsp : isSpaceJS c = true
    · have hrestne : rest ≠ [] := by
        intro he
        subst he
        have := hlast c (by simp)
        rw [this] at hsp
        exact Bool.false_ne_true hsp
      have h2 := ihrest.2 hrestne
      constructor
      · simp only [collapseWs, hsp, if_true, List.map_cons]
        have hhy : ('-' : Char) = '-' := rfl
        simp only [slugAccept, if_pos hhy, Bool.true_and]
        exact h2
      · intro _
        simp only [collapseWs, hsp, if_true]
        exact h2
    · have halnum : isAsciiAlphanum c = true := by
        rcases hchars c (List.mem_cons_self c rest) with h | h
        · exact h
        · exact absurd h hsp
      have hne : asciiLower c ≠ '-' := ne_hyphen_of_isAsciiAlphanum halnum
      have hla : isLowerAlnum (asciiLower c) = true :=
        isLowerAlnum_asciiLower c halnum
      constructor
      · simp only [collapseWs, hsp, if_false, List.map_cons]
        simp only [slugAccept, if_neg hne, hla, Bool.true_and]
        exact ihrest.1
      · intro _
        simp only [collapseWs, hsp, if_false, List.map_cons]
        simp only [slugAccept, if_neg hne, hla, Bool.true_and]
        exact ihrest.1

/-- Every slugify output is either empty or matches
`^[a-z0-9]+(-[a-z0-9]+)*$`. -/
theorem slugify_empty_or_good (title : String) :
    slugifyStrictLower title = "" ∨
      isGoodSlug (slugifyStrictLower title) = true := by
  rw [slugifyStrictLower]
  set kept := ((title.data.map slugCharMap).flatten).filter
    (fun c => isAsciiAlphanum c || isSpaceJS c) with hkept
  have hchars : ∀ c ∈ trimWs kept, isAsciiAlphanum c = true ∨ isSpaceJS c = true := by
    intro c hc
    have := mem_trimWs hc
    rw [hkept] at this
    have := List.of_mem_filter this
    simpa using this
  have hlast : ∀ c, (trimWs kept).getLast? = some c → isSpaceJS c = false :=
    fun c hc => getLast?_trimWs hc
  cases htr : trimWs kept with
  | nil =>
    left
    simp [htr, collapseWs]
  | cons c rest =>
    right
    have hcs : isSpaceJS c = false := by
      apply head?_trimWs (l := kept)
      rw [htr]
      rfl
    have halnum : isAsciiAlphanum c = true := by
      rcases hchars c (htr ▸ List.mem_cons_self c rest) with h | h
      · exact h
      · rw [h] at hcs; exact absurd hcs (by simp)
    rw [htr] at hchars hlast
    have hcrest : ∀ d ∈ rest, isAsciiAlphanum d = true ∨ isSpaceJS d = true :=
      fun d hd => hchars d (List.mem_cons_of_mem c hd)
    have hlrest : ∀ d, rest.getLast? = some d → isSpaceJS d = false := by
      intro d hd
      apply hlast d
      cases rest with
      | nil => simp at hd
      | cons b u => rwa [List.getLast?_cons_cons]
    have hmain := (slugAccept_collapseWs rest hcrest hlrest).1
    simp only [isGoodSlug]
    show slugAccept false ((collapseWs false (c :: rest)).map asciiLower) = true
    simp only [collapseWs, hcs, Bool.false_eq_true, if_false, List.map_cons]
    rw [slugAccept_cons_of_ne false (ne_hyphen_of_isAsciiAlphanum halnum),
      isLowerAlnum_asciiLower c halnum, Bool.true_and]
    exact hmain

theorem slugAccept_of_all_alnum :
    ∀ l : List Char, (∀ c ∈ l, isLowerAlnum c = true) →
      slugAccept true l = true := by
  intro l
  induction l with
  | nil => intro _; rfl
  | cons c rest ih =>
    intro h
    have hc := h c (List.mem_cons_self c rest)
    simp only [slugAccept, if_neg (ne_hyphen_of_isLowerAlnum hc), hc,
      Bool.true_and]
    exact ih fun d hd => h d (List.mem_cons_of_mem c hd)

theorem slugAccept_append_word :
    ∀ (l : List Char) (b : Bool), slugAccept b l = true →
      ∀ w : List Char, w ≠ [] → (∀ c ∈ w, isLowerAlnum c = true) →
        slugAccept b (l ++ '-' :: w) = true := by
  intro l
  induction l with
  | nil =>
    intro b hb w hw hwc
    have hb' : b = true := hb
    subst hb'
    simp only [List.nil_append]
    have hhy : ('-' : Char) = '-' := rfl
    simp only [slugAccept, if_pos hhy, Bool.true_and]
    cases w with
    | nil => exact absurd rfl hw
    | cons d u =>
      have hd := hwc d (List.mem_cons_self d u)
      simp only [slugAccept, if_neg (ne_hyphen_of_isLowerAlnum hd), hd,
        Bool.true_and]
      exact slugAccept_of_all_alnum u fun e he => hwc e (List.mem_cons_of_mem d he)
  | cons c rest ih =>
    intro b hb w hw hwc
    by_cases hc : c = '-'
    · subst hc
      rw [slugAccept_cons_hyphen, Bool.and_eq_true] at hb
      rw [List.cons_append, slugAccept_cons_hyphen, hb.1, Bool.true_and]
      exact ih false hb.2 w hw hwc
    · rw [slugAccept_cons_of_ne b hc, Bool.and_eq_true] at hb
      rw [List.cons_append, slugAccept_cons_of_ne b hc, hb.1, Bool.true_and]
      exact ih true hb.2 w hw hwc

theorem data_append (a b : String) : (a ++ b).data = a.data ++ b.data := by
  cases a; cases b; rfl

theorem natToDec_data_ne_nil (n : Nat) : (natToDec n).data ≠ [] :=
  natToDecAux_ne_nil (n + 1) n (by omega)

theorem candidateSlug_injective (base : String) :
    Function.Injective (candidateSlug base) := by
  have hhy : ("-".data).length = 1 := rfl
  intro n m h
  by_cases hn : n = 0 <;> by_cases hm : m = 0
  · omega
  · exfalso
    have hd := congrArg String.data h
    simp only [candidateSlug, hn, hm, if_true, if_false, data_append] at hd
    have hl := congrArg List.length hd
    simp only [List.length_append] at hl
    have hpos : 0 < (natToDec m).data.length :=
      List.length_pos.mpr (natToDec_data_ne_nil m)
    omega
  · exfalso
    have hd := congrArg String.data h
    simp only [candidateSlug, hn, hm, if_true, if_false, data_append] at hd
    have hl := congrArg List.length hd
    simp only [List.length_append] at hl
    have hpos : 0 < (natToDec n).data.length :=
      List.length_pos.mpr (natToDec_data_ne_nil n)
    omega
  · have hd := congrArg String.data h
    simp only [candidateSlug, hn, hm, if_false, data_append,
      List.append_assoc] at hd
    have h2 := List.append_cancel_left hd
    have h3 := List.append_cancel_left h2
    have hdec : natToDec n = natToDec m := by
      have e : (⟨(natToDec n).data⟩ : String) = ⟨(natToDec m).data⟩ := by
        rw [h3]
      exact e
    exact natToDec_injective hdec

theorem isGoodSlug_candidateSlug (base : String) (hb : isGoodSlug base = true)
    (n : Nat) : isGoodSlug (candidateSlug base n) = true := by
  by_cases hn : n = 0
  · simpa [candidateSlug, hn] using hb
  · simp only [candidateSlug, hn, if_false]
    have hdig : ∀ c ∈ (natToDec n).data, isLowerAlnum c = true := fun c hc =>
      isLowerAlnum_of_isDigit10 c (isDigit10_of_mem_natToDecAux (n + 1) n c hc)
    have hne : (natToDec n).data ≠ [] := natToDec_data_ne_nil n
    simp only [isGoodSlug] at hb ⊢
    have hshape : (base ++ "-" ++ natToDec n).data =
        base.data ++ '-' :: (natToDec n).data := by
      simp [data_append]
    rw [hshape]
    exact slugAccept_append_word base.data false hb (natToDec n).data hne hdig

theorem exists_record_of_slugTaken {store : List PostRec}
    {postId : Option String} {s : String}
    (h : slugTaken store postId s = true) : ∃ p ∈ store, p.slug = s := by
  rw [slugTaken] at h
  cases hf : findUniqueBySlug store s with
  | none => rw [hf] at h; simp at h
  | some p =>
    refine ⟨p, List.mem_of_find?_eq_some hf, ?_⟩
    have := List.find?_some hf
    simpa using this

theorem slugTaken_none_iff (store : List PostRec) (s : String) :
    slugTaken store none s = true ↔ s ∈ store.map PostRec.slug := by
  constructor
  · intro h
    obtain ⟨p, hp, hps⟩ := exists_record_of_slugTaken h
    exact List.mem_map.mpr ⟨p, hp, hps⟩
  · intro h
    obtain ⟨p, hp, hps⟩ := List.mem_map.mp h
    rw [slugTaken]
    cases hf : findUniqueBySlug store s with
    | none =>
      exfalso
      rw [findUniqueBySlug, List.find?_eq_none] at hf
      exact absurd (by simp [hps]) (hf p hp)
    | some q => rfl

theorem nodup_subset_length {l1 l2 : List String} (h : l1.Nodup)
    (hs : l1 ⊆ l2) : l1.length ≤ l2.length :=
  calc l1.length = l1.toFinset.card := (List.toFinset_card_of_nodup h).symm
    _ ≤ l2.toFinset.card := Finset.card_le_card (by
        intro x hx
        simp only [List.mem_toFinset] at hx ⊢
        exact hs hx)
    _ ≤ l2.length := l2.toFinset_card_le

/-- Pigeonhole: among the first `store.length + 1` candidates (which are
pairwise distinct), at least one is not taken. -/
theorem exists_untaken_candidate (store : List PostRec)
    (postId : Option String) (base : String) :
    ∃ n ≤ store.length,
      slugTaken store postId (candidateSlug base n) = false := by
  by_contra hall
  push_neg at hall
  have htaken : ∀ n ≤ store.length,
      slugTaken store postId (candidateSlug base n) = true := by
    intro n hn
    have := hall n hn
    cases hbn : slugTaken store postId (candidateSlug base n)
    · exact absurd hbn this
    · rfl
  have hnodup : ((List.range (store.length + 1)).map
      (candidateSlug base)).Nodup :=
    List.Nodup.map (candidateSlug_injective base) (List.nodup_range _)
  have hsub : ((List.range (store.length + 1)).map (candidateSlug base)) ⊆
      store.map PostRec.slug := by
    intro s hs
    obtain ⟨n, hn, rfl⟩ := List.mem_map.mp hs
    rw [List.mem_range] at hn
    obtain ⟨p, hp, hps⟩ :=
      exists_record_of_slugTaken (htaken n (by omega))
    exact List.mem_map.mpr ⟨p, hp, hps⟩
  have := nodup_subset_length hnodup hsub
  simp only [List.length_map, List.length_range] at this
  omega

/-- The loop reaches the least untaken candidate, given enough fuel. -/
theorem probeSlug_reaches (store : List PostRec) (postId : Option String)
    (base : String) (t : Nat)
    (ht : slugTaken store postId (candidateSlug base t) = false) :
    ∀ fuel k, k ≤ t → t < k + fuel →
      (∀ m, k ≤ m → m < t →
        slugTaken store postId (candidateSlug base m) = true) →
      probeSlug store postId base fuel k = some (candidateSlug base t) := by
  intro fuel
  induction fuel with
  | zero => intro k h1 h2 _; omega
  | succ f ih =>
    intro k h1 h2 hmid
    by_cases hk : k = t
    · subst hk
      simp [probeSlug, ht]
    · have hkt : k < t := by omega
      have htk := hmid k (le_refl k) hkt
      simp only [probeSlug, htk, if_true]
      exact ih (k + 1) (by omega) (by omega)
        (fun m hm1 hm2 => hmid m (by omega) hm2)

/-- Termination and probe bound for the allocator loop: with fuel
`store.length + 1` the loop returns the first candidate that is unused or
owned by the excluded post; its index is at most the number of stored
records whose slug collides with one of the previously probed candidates
(so the number of probes is that collision count plus one). -/
theorem probeSlug_terminates (store : List PostRec) (postId : Option String)
    (base : String) :
    ∃ n,
      probeSlug store postId base (store.length + 1) 0 =
        some (candidateSlug base n) ∧
      slugTaken store postId (candidateSlug base n) = false ∧
      (∀ m < n, slugTaken store postId (candidateSlug base m) = true) ∧
      n ≤ (store.filter (fun p =>
        decide (p.slug ∈ (List.range n).map (candidateSlug base)))).length := by
  obtain ⟨n0, hn0, hfree⟩ := exists_untaken_candidate store postId base
  have hex : ∃ n, slugTaken store postId (candidateSlug base n) = false :=
    ⟨n0, hfree⟩
  set t := Nat.find hex with hti
  have hts : slugTaken store postId (candidateSlug base t) = false :=
    Nat.find_spec hex
  have htmin : ∀ m < t, slugTaken store postId (candidateSlug base m) = true := by
    intro m hm
    have := Nat.find_min hex hm
    cases hbm : slugTaken store postId (candidateSlug base m)
    · exact absurd hbm this
    · rfl
  have htle : t ≤ store.length := le_trans (Nat.find_min' hex hfree) hn0
  refine ⟨t, ?_, hts, htmin, ?_⟩
  · exact probeSlug_reaches store postId base t hts (store.length + 1) 0
      (by omega) (by omega) (fun m _ hm => htmin m hm)
  · have hnodup : ((List.range t).map (candidateSlug base)).Nodup :=
      List.Nodup.map (candidateSlug_injective base) (List.nodup_range _)
    have hsub : ((List.range t).map (candidateSlug base)) ⊆
        (store.filter (fun p =>
          decide (p.slug ∈ (List.range t).map (candidateSlug base)))).map
          PostRec.slug := by
      intro s hs
      obtain ⟨m, hm, rfl⟩ := List.mem_map.mp hs
      rw [List.mem_range] at hm
      obtain ⟨p, hp, hps⟩ := exists_record_of_slugTaken (htmin m hm)
      refine List.mem_map.mpr ⟨p, ?_, hps⟩
      rw [List.mem_filter]
      refine ⟨hp, ?_⟩
      rw [hps]
      simp only [decide_eq_true_eq]
      exact List.mem_map.mpr ⟨m, List.mem_range.mpr hm, rfl⟩
    have := nodup_subset_length hnodup hsub
    simpa using this

theorem probeSlug_shape (store : List PostRec) (postId : Option String)
    (base : String) : ∀ fuel k s,
      probeSlug store postId base fuel k = some s →
      ∃ n, s = candidateSlug base n := by
  intro fuel
  induction fuel with
  | zero => intro k s h; simp [probeSlug] at h
  | succ f ih =>
    intro k s h
    by_cases ht : slugTaken store postId (candidateSlug base k) = true
    · simp only [probeSlug, ht, if_true] at h
      exact ih (k + 1) s h
    · simp only [probeSlug, ht, if_false] at h
      exact ⟨k, (Option.some.inj h).symm⟩

/-- C2 (counterexample): the allocator does not raise any error on a title
with no alphanumeric characters — called on `"!!!###"` over an empty store
it succeeds and returns the empty slug. -/
theorem claim_C2_counterexample :
    generateUniqueSlug [] "!!!###" none = some "" := by decide

/-- C2 (amended): the slug allocator performs no title validation.  When
normalization of the title yields an empty base (e.g. `"!!!###"`, which
has no alphanumeric character) and no stored post has an empty slug, the
allocator returns the empty slug instead of failing: no `InvalidTitleError`
exists in the code. -/
theorem claim_C2 (store : List PostRec) (postId : Option String)
    (h : ∀ p ∈ store, p.slug ≠ "") :
    generateUniqueSlug store "!!!###" postId = some "" := by
  have hfind : findUniqueBySlug store "" = none := by
    rw [findUniqueBySlug, List.find?_eq_none]
    intro p hp
    simp [h p hp]
  have htaken : slugTaken store postId "" = false := by
    rw [slugTaken, hfind]
  have hbase : slugifyStrictLower "!!!###" = "" := by decide
  rw [generateUniqueSlug, hbase]
  show probeSlug store postId "" (store.length + 1) 0 = some ""
  simp [probeSlug, candidateSlug, htaken]

/-- C2 (witness): the amended statement at a concrete store. -/
theorem claim_C2_witness :
    generateUniqueSlug [⟨"a", "T", "t"⟩] "!!!###" none = some "" :=
  claim_C2 [⟨"a", "T", "t"⟩] none (by decide)

/-- C3 (counterexample): for the all-punctuation title `"@@@"` the
allocator's output is the empty string, which does not match
`^[a-z0-9]+(-[a-z0-9]+)*$` — so the charset/non-emptiness invariant does
not hold for *every* title. -/
theorem claim_C3_counterexample :
    generateUniqueSlug [] "@@@" none = some "" ∧ isGoodSlug "" = false := by
  constructor <;> decide

/-- C3 (amended): for every title whose normalization is non-empty, every
slug the allocator returns (over any store and exclusion id) matches
`^[a-z0-9]+(-[a-z0-9]+)*$` — no leading/trailing hyphen, no double
hyphens; and the example holds: `"Hello, World! 2024"` normalizes to base
slug `hello-world-2024`. -/
theorem claim_C3 :
    (∀ (store : List PostRec) (postId : Option String) (title s : String),
      slugifyStrictLower title ≠ "" →
      generateUniqueSlug store title postId = some s →
      isGoodSlug s = true) ∧
    slugifyStrictLower "Hello, World! 2024" = "hello-world-2024" := by
  constructor
  · intro store postId title s hbase hgen
    obtain ⟨n, rfl⟩ := probeSlug_shape store postId (slugifyStrictLower title)
      (store.length + 1) 0 s hgen
    rcases slugify_empty_or_good title with h | h
    · exact absurd h hbase
    · exact isGoodSlug_candidateSlug _ h n
  · decide

/-- C3 (witness): the invariant applied at the example title over an empty
store. -/
theorem claim_C3_witness : isGoodSlug "hello-world-2024" = true :=
  claim_C3.1 [] none "Hello, World! 2024" "hello-world-2024" (by decide)
    (by decide)

/-- C5: if the stored slugs are exactly `foo`, `foo-1`, `foo-2`, then
allocating for title `"Foo"` with no exclusion id probes `foo`, `foo-1`,
`foo-2` and returns `foo-3`. -/
theorem claim_C5 (store : List PostRec)
    (hperm : List.Perm (store.map PostRec.slug) ["foo", "foo-1", "foo-2"]) :
    generateUniqueSlug store "Foo" none = some "foo-3" := by
  have hlen : store.length = 3 := by
    have := hperm.length_eq
    simpa using this
  have hmem : ∀ s, slugTaken store none s = true ↔
      s ∈ (["foo", "foo-1", "foo-2"] : List String) := by
    intro s
    rw [slugTaken_none_iff]
    exact hperm.mem_iff
  have hbase : slugifyStrictLower "Foo" = "foo" := by decide
  have h0 : slugTaken store none "foo" = true := (hmem _).mpr (by decide)
  have h1 : slugTaken store none "foo-1" = true := (hmem _).mpr (by decide)
  have h2 : slugTaken store none "foo-2" = true := (hmem _).mpr (by decide)
  have h3 : slugTaken store none "foo-3" = false := by
    cases hb : slugTaken store none "foo-3"
    · rfl
    · have := (hmem "foo-3").mp hb
      simp at this
  have e0 : candidateSlug "foo" 0 = "foo" := rfl
  have e1 : candidateSlug "foo" 1 = "foo-1" := rfl
  have e2 : candidateSlug "foo" 2 = "foo-2" := rfl
  have e3 : candidateSlug "foo" 3 = "foo-3" := rfl
  rw [generateUniqueSlug, hbase, hlen]
  show probeSlug store none "foo" 4 0 = some "foo-3"
  simp [probeSlug, e0, e1, e2, e3, h0, h1, h2, h3]

/-- C5 (witness): at a concrete store holding `foo`, `foo-1`, `foo-2`. -/
theorem claim_C5_witness :
    generateUniqueSlug
      [⟨"a", "A", "foo"⟩, ⟨"b", "B", "foo-1"⟩, ⟨"c", "C", "foo-2"⟩]
      "Foo" none = some "foo-3" :=
  claim_C5 _ (by decide)

/-- C6: re-allocating for title `"Foo"` with the exclusion id of the post
that already owns slug `foo` returns `foo` itself, not `foo-1` (stored
slugs are unique per the schema's unique constraint, and Prisma ids are
non-empty). -/
theorem claim_C6 (store : List PostRec) (p : PostRec) (hp : p ∈ store)
    (hslug : p.slug = "foo") (hid : p.id ≠ "")
    (hnodup : (store.map PostRec.slug).Nodup) :
    generateUniqueSlug store "Foo" (some p.id) = some "foo" := by
  have hbase : slugifyStrictLower "Foo" = "foo" := by decide
  have hfound : ∃ q, findUniqueBySlug store "foo" = some q := by
    rw [findUniqueBySlug]
    have : (store.find? (fun q => q.slug == "foo")).isSome = true := by
      rw [List.find?_isSome]
      exact ⟨p, hp, by simp [hslug]⟩
    cases hq : store.find? (fun q => q.slug == "foo")
    · rw [hq] at this; simp at this
    · exact ⟨_, rfl⟩
  obtain ⟨q, hq⟩ := hfound
  have hqmem : q ∈ store := List.mem_of_find?_eq_some hq
  have hqslug : q.slug = "foo" := by
    have := List.find?_some hq
    simpa using this
  have hqp : q = p := List.inj_on_of_nodup_map hnodup hqmem hp
    (by rw [hqslug, hslug])
  have htaken : slugTaken store (some p.id) "foo" = false := by
    rw [slugTaken, hq, hqp]
    simp [hid]
  rw [generateUniqueSlug, hbase]
  show probeSlug store (some p.id) "foo" (store.length + 1) 0 = some "foo"
  simp [probeSlug, candidateSlug, htaken]

/-- C6 (witness): at a concrete one-record store. -/
theorem claim_C6_witness :
    generateUniqueSlug [⟨"X", "Foo", "foo"⟩] "Foo" (some "X") = some "foo" :=
  claim_C6 [⟨"X", "Foo", "foo"⟩] ⟨"X", "Foo", "foo"⟩ (by decide) rfl
    (by decide) (by decide)

/-- C7: for every finite store the probe loop terminates, returning a
candidate that is not taken (unused, or owned by the excluded post); all
earlier candidates were taken, and the index `n` of the returned candidate
is at most the number of stored records whose slug collides with one of
the probed candidates — so the loop makes at most `collisions + 1` probes,
with no artificial cap. -/
theorem claim_C7 (store : List PostRec) (postId : Option String)
    (title : String) :
    ∃ n,
      generateUniqueSlug store title postId =
        some (candidateSlug (slugifyStrictLower title) n) ∧
      slugTaken store postId (candidateSlug (slugifyStrictLower title) n) =
        false ∧
      (∀ m < n,
        slugTaken store postId (candidateSlug (slugifyStrictLower title) m) =
          true) ∧
      n ≤ (store.filter (fun p => decide (p.slug ∈
        (List.range n).map (candidateSlug (slugifyStrictLower title))))).length := by
  simpa [generateUniqueSlug] using
    probeSlug_terminates store postId (slugifyStrictLower title)

/-- C8: on update, the slug is kept exactly when the submitted title equals
the stored title, and regenerated (excluding the post itself) exactly when
it differs. -/
theorem claim_C8 (store : List PostRec) (existingPost : PostRec)
    (title : String) :
    (title = existingPost.title →
      updatePostSlug store existingPost title = some existingPost.slug) ∧
    (title ≠ existingPost.title →
      updatePostSlug store existingPost title =
        generateUniqueSlug store title (some existingPost.id)) := by
  constructor
  · intro h
    simp [updatePostSlug, h]
  · intro h
    simp [updatePostSlug, h]

/-- C8 (witness): an update submitting the unchanged title keeps the
stored slug. -/
theorem claim_C8_witness :
    updatePostSlug [] ⟨"X", "My Title", "my-title"⟩ "My Title" =
      some "my-title" :=
  (claim_C8 [] ⟨"X", "My Title", "my-title"⟩ "My Title").1 rfl

theorem titleBlock_points_le (title : String) : (titleBlock title).1 ≤ 20 := by
  rw [titleBlock]
  split_ifs <;> simp

theorem metaBlock_points_le (m : String) : (metaBlock m).1 ≤ 20 := by
  rw [metaBlock]
  split_ifs <;> simp

theorem slugBlock_points_le (s : String) : (slugBlock s).1 ≤ 15 := by
  rw [slugBlock]
  split_ifs <;> simp

theorem contentBlock_points_le (content : String) :
    (contentBlock content).1 ≤ 40 := by
  simp only [contentBlock]
  split_ifs <;> simp

/-- C10: the server-side `analyzeSEO` awards at most 20 + 20 + 15 + 15 +
10 + 10 + 5 = 95 points, so despite the `Math.min(100, score)` cap the
returned score never exceeds 95 and the value 100 is unreachable (the
score is a natural number, so `0 ≤ score ≤ 95` for all inputs). -/
theorem claim_C10 (content title metaDescription slug : String) :
    (serverAnalyzeSEO content title metaDescription slug).score ≤ 95 := by
  have ht := titleBlock_points_le title
  have hm := metaBlock_points_le metaDescription
  have hs := slugBlock_points_le slug
  have hc := contentBlock_points_le content
  simp only [serverAnalyzeSEO]
  exact le_trans (min_le_right _ _) (by omega)

/-- C9: for title `"React Hooks Guide"` and any content of exactly 100
`split(/\\s+/)` chunks containing the whole word `hooks` (case-insensitive)
exactly 5 times, the server scorer's `keywordDensity["hooks"]` is
`{count: 5, density: "5.00"}` — 5 occurrences divided by the 100 content
words, times 100, rendered with `toFixed(2)` (the float computation is
exactly 5.0 here, so exact and double rounding agree). -/
theorem claim_C9 (content metaDescription slug : String)
    (hwords : (jsSplitWs content.data).length = 100)
    (hcount : countWW "hooks".data (asciiLowerStr content).data = 5) :
    kdLookup (serverAnalyzeSEO content "React Hooks Guide" metaDescription
      slug) "hooks" = some (5, "5.00") := by
  have hcne : (content != "") = true := by
    rw [bne_iff_ne]
    intro he
    rw [he] at hwords
    simp [jsSplitWs, jsSplitWsAux] at hwords
  have htw : jsSplitWs (asciiLowerStr "React Hooks Guide").data =
      ["react".data, "hooks".data, "guide".data] := by decide
  have hkd : kdEntries content "React Hooks Guide" =
      [("react", (countWW "react".data (asciiLowerStr content).data,
          toFixed2 (countWW "react".data (asciiLowerStr content).data * 100) 100)),
       ("hooks", (5, "5.00")),
       ("guide", (countWW "guide".data (asciiLowerStr content).data,
          toFixed2 (countWW "guide".data (asciiLowerStr content).data * 100) 100))] := by
    simp only [kdEntries, htw, hwords, List.foldl_cons, List.foldl_nil]
    rw [if_pos (by decide : ("react".data.length > 3)),
      if_pos (by decide : ("hooks".data.length > 3)),
      if_pos (by decide : ("guide".data.length > 3))]
    rw [hcount]
    rfl
  simp only [serverAnalyzeSEO, kdLookup]
  rw [if_pos]
  · rw [hkd]
    simp only [List.find?]
    rfl
  · simp [hcne]

set_option maxRecDepth 40000 in
/-- C9 (witness): the scenario at a concrete 100-word content. -/
theorem claim_C9_witness :
    kdLookup (serverAnalyzeSEO hooksContent "React Hooks Guide" "" "")
      "hooks" = some (5, "5.00") :=
  claim_C9 hooksContent "" "" (by decide) (by decide)

theorem cTitleCheck_snd (t : String) :
    (cTitleCheck t).2 = (cTitleCheck t).1.score := by
  rw [cTitleCheck]; split_ifs <;> rfl

theorem cMetaCheck_snd (m : String) :
    (cMetaCheck m).2 = (cMetaCheck m).1.score := by
  rw [cMetaCheck]; split_ifs <;> rfl

theorem cContentCheck_snd (w : Nat) :
    (cContentCheck w).2 = (cContentCheck w).1.score := by
  rw [cContentCheck]; split_ifs <;> rfl

theorem cSlugCheck_snd (s : String) :
    (cSlugCheck s).2 = (cSlugCheck s).1.score := by
  rw [cSlugCheck]; split_ifs <;> rfl

theorem cImageCheck_snd (f : String) :
    (cImageCheck f).2 = (cImageCheck f).1.score := by
  rw [cImageCheck]; split_ifs <;> rfl

theorem cTagsCheck_snd (t : List String) :
    (cTagsCheck t).2 = (cTagsCheck t).1.score := by
  rw [cTagsCheck]; split_ifs <;> rfl

theorem cHeadingsCheck_snd (c : String) :
    (cHeadingsCheck c).2 = (cHeadingsCheck c).1.score := by
  rw [cHeadingsCheck]; split_ifs <;> rfl

theorem cTitleCheck_le (t : String) : (cTitleCheck t).2 ≤ 10 := by
  rw [cTitleCheck]; split_ifs <;> simp

theorem cMetaCheck_le (m : String) : (cMetaCheck m).2 ≤ 10 := by
  rw [cMetaCheck]; split_ifs <;> simp

theorem cContentCheck_le (w : Nat) : (cContentCheck w).2 ≤ 10 := by
  rw [cContentCheck]; split_ifs <;> simp

theorem cSlugCheck_le (s : String) : (cSlugCheck s).2 ≤ 10 := by
  rw [cSlugCheck]; split_ifs <;> simp

theorem cImageCheck_le (f : String) : (cImageCheck f).2 ≤ 10 := by
  rw [cImageCheck]; split_ifs <;> simp

theorem cTagsCheck_le (t : List String) : (cTagsCheck t).2 ≤ 10 := by
  rw [cTagsCheck]; split_ifs <;> simp

theorem cHeadingsCheck_le (c : String) : (cHeadingsCheck c).2 ≤ 10 := by
  rw [cHeadingsCheck]; split_ifs <;> simp

/-- C1: the client Content Scorer's final score is the sum of the checks'
`score` fields, divided by the maximum attainable points (number of checks
times the per-check maximum of 10), scaled to 0-100 with `Math.round`; it
never exceeds 100, and an input earning the full 10 points on every check
scores exactly 100. -/
theorem claim_C1 (title content metaDescription slug featuredImage : String)
    (tags : List String) :
    (clientAnalyzeSEO title content metaDescription slug featuredImage
        tags).seoScore =
      jsRoundDiv
        ((((clientAnalyzeSEO title content metaDescription slug featuredImage
          tags).checks.map CCheck.score).sum) * 100)
        ((clientAnalyzeSEO title content metaDescription slug featuredImage
          tags).checks.length * 10) ∧
    (clientAnalyzeSEO title content metaDescription slug featuredImage
      tags).seoScore ≤ 100 ∧
    ((∀ ch ∈ (clientAnalyzeSEO title content metaDescription slug
        featuredImage tags).checks, ch.score = 10) →
      (clientAnalyzeSEO title content metaDescription slug featuredImage
        tags).seoScore = 100) := by
  simp only [clientAnalyzeSEO, List.map_cons, List.map_nil, List.sum_cons,
    List.sum_nil, List.length_cons, List.length_nil]
  refine ⟨?_, ?_, ?_⟩
  · rw [cTitleCheck_snd, cMetaCheck_snd, cContentCheck_snd, cSlugCheck_snd,
      cImageCheck_snd, cTagsCheck_snd, cHeadingsCheck_snd]
    ring_nf
  · have h1 := cTitleCheck_le title
    have h2 := cMetaCheck_le metaDescription
    have h3 := cContentCheck_le
      (((jsSplitWs (stripTags content.data)).filter
        (fun w => w.length > 0)).length)
    have h4 := cSlugCheck_le slug
    have h5 := cImageCheck_le featuredImage
    have h6 := cTagsCheck_le tags
    have h7 := cHeadingsCheck_le content
    rw [jsRoundDiv]
    omega
  · intro hall
    have e1 : (cTitleCheck title).1.score = 10 := hall _ (by simp)
    have e2 : (cMetaCheck metaDescription).1.score = 10 := hall _ (by simp)
    have e3 : (cContentCheck (((jsSplitWs (stripTags content.data)).filter
        (fun w => w.length > 0)).length)).1.score = 10 := hall _ (by simp)
    have e4 : (cSlugCheck slug).1.score = 10 := hall _ (by simp)
    have e5 : (cImageCheck featuredImage).1.score = 10 := hall _ (by simp)
    have e6 : (cTagsCheck tags).1.score = 10 := hall _ (by simp)
    have e7 : (cHeadingsCheck content).1.score = 10 := hall _ (by simp)
    rw [cTitleCheck_snd, cMetaCheck_snd, cContentCheck_snd, cSlugCheck_snd,
      cImageCheck_snd, cTagsCheck_snd, cHeadingsCheck_snd, e1, e2, e3, e4,
      e5, e6, e7]
    rfl

set_option maxRecDepth 40000 in
/-- C1 (witness): a concrete input earning full points on all seven checks
scores 100. -/
theorem claim_C1_witness :
    (clientAnalyzeSEO wellFormedTitle wellFormedContent wellFormedMeta
      "well-formed-post" "img.png" ["react", "hooks", "guide"]).seoScore =
      100 :=
  (claim_C1 wellFormedTitle wellFormedContent wellFormedMeta
    "well-formed-post" "img.png" ["react", "hooks", "guide"]).2.2 (by decide)

/-- C4: the client Content Scorer computes the content word count by first
stripping every `<...>` span and then splitting on whitespace (dropping
empty chunks); the word-count check is the warning `content-short` entry
exactly when that count is below 300 and the success `content-good` entry
otherwise.  The last conjunct shows stripping matters: a tag containing
spaces does not inflate the count. -/
theorem claim_C4 (title content metaDescription slug featuredImage : String)
    (tags : List String) :
    (clientAnalyzeSEO title content metaDescription slug featuredImage
        tags).wordCount = clientWordCount content ∧
    (clientWordCount content < 300 →
      (clientAnalyzeSEO title content metaDescription slug featuredImage
          tags).checks[2]? =
        some ⟨"content-short", "Content Too Short", "warning",
          "Content has " ++ natToDec (clientWordCount content) ++
            " words. Aim for at least 300 words for better SEO.", 5⟩) ∧
    (300 ≤ clientWordCount content →
      (clientAnalyzeSEO title content metaDescription slug featuredImage
          tags).checks[2]? =
        some ⟨"content-good", "Content Length", "success",
          "Content length (" ++ natToDec (clientWordCount content) ++
            " words) is good for SEO.", 10⟩) ∧
    clientWordCount "<img src='a b c'> one two" = 2 := by
  refine ⟨rfl, ?_, ?_, by decide⟩
  · intro h
    simp only [clientAnalyzeSEO]
    show some (cContentCheck (clientWordCount content)).1 = _
    rw [cContentCheck, if_pos h]
  · intro h
    simp only [clientAnalyzeSEO]
    show some (cContentCheck (clientWordCount content)).1 = _
    rw [cContentCheck, if_neg (by omega)]

/-- C4 (witness): a two-word HTML content triggers the warning entry. -/
theorem claim_C4_witness :
    (clientAnalyzeSEO "T" "<p>hello world</p>" "" "" "" []).checks[2]? =
      some ⟨"content-short", "Content Too Short", "warning",
        "Content has 2 words. Aim for at least 300 words for better SEO.",
        5⟩ :=
  (claim_C4 "T" "<p>hello world</p>" "" "" "" []).2.1 (by decide)
